import Mathlib

/-!
Verification of the acquisition-orchestration and calibration pipeline in
src/csvexport.py against its specification.  Python floats are modelled as
exact rationals; the concrete float computations appearing in the claims
(for instance 5.0 / (500.0 * 0.01 * 1.0)) are exact in IEEE double as well,
so the rational model agrees with the source on those inputs.
-/

namespace Hantek

/-! ## Calibration correction model (csvexport.py lines 56-94) -/

/-- One entry of the structured calibration file: a calibration record
with fields test_voltage, measured_value, vscale and zero_offset. -/
structure CalRecord where
  test_voltage : ℚ
  measured_value : ℚ
  vscale : ℚ
  zero_offset : ℚ
deriving DecidableEq

/-- Line 81: units = test["measured_value"] - test["zero_offset"]. -/
def units (r : CalRecord) : ℚ := r.measured_value - r.zero_offset

/-- Line 82: correction_factor = test_voltage / (units * 0.01 * vscale). -/
def correction_factor (r : CalRecord) : ℚ :=
  r.test_voltage / (units r * (1 / 100) * r.vscale)

/-- Python dict assignment d[k] = v on a dict modelled as an association
list: update in place if the key is present, else append at the end. -/
def dinsert {β : Type} (k : ℚ) (v : β) : List (ℚ × β) → List (ℚ × β)
  | [] => [(k, v)]
  | p :: rest => if k = p.1 then (k, v) :: rest else p :: dinsert k v rest

/-- Python dict lookup d[k] (as an Option). -/
def dlookup {β : Type} (k : ℚ) : List (ℚ × β) → Option β
  | [] => none
  | p :: rest => if k = p.1 then some p.2 else dlookup k rest

/-- The per-channel part of the nested correction table:
vscale -> units -> correction_factor. -/
abbrev ChannelTable : Type := List (ℚ × List (ℚ × ℚ))

/-- Lines 86-89: ensure correction_data[channel_id][vscale] exists (defaulting
to the empty dict) and set correction_data[channel_id][vscale][units] to the
correction factor. -/
def addRecord (t : ChannelTable) (r : CalRecord) : ChannelTable :=
  dinsert r.vscale
    (dinsert (units r) (correction_factor r) ((dlookup r.vscale t).getD [])) t

/-- Lines 78-89 for one channel: fold the list of records into the channel
table.  The division at line 82 is unguarded: when the denominator
units * 0.01 * vscale equals zero, Python raises ZeroDivisionError, which
aborts the whole load (there is no try/except around the loop); this is
modelled by the .error outcome. -/
def processChannel : List CalRecord → ChannelTable → Except Unit ChannelTable
  | [], t => .ok t
  | r :: rest, t =>
    if units r * (1 / 100) * r.vscale = 0 then .error ()
    else processChannel rest (addRecord t r)

/-- Lines 73-89: iterate over the channels of the calibration file and build
the nested table, starting from eight empty channel tables (line 56).  The
source iterates the JSON object in sorted key order; since keys of a JSON
object are distinct and each iteration only touches its own channel slot,
the resulting table (and the abort-on-error outcome) do not depend on the
iteration order, so the model processes the entries in list order.  A channel
id outside 0..7 would raise IndexError in Python; modelled as .error. -/
def loadCorrectionData : List (ℕ × List CalRecord) → List ChannelTable →
    Except Unit (List ChannelTable)
  | [], tbls => .ok tbls
  | (ch, recs) :: rest, tbls =>
    if h : ch < tbls.length then
      match processChannel recs tbls[ch] with
      | .error e => .error e
      | .ok t => loadCorrectionData rest (tbls.set ch t)
    else .error ()

/-- Line 56: correction_data = [{} for _ in range(8)], eight empty dicts. -/
def emptyTables : List ChannelTable := [[], [], [], [], [], [], [], []]

/-- Whole-file load: fold the calibration file into the initial table. -/
def load (data : List (ℕ × List CalRecord)) : Except Unit (List ChannelTable) :=
  loadCorrectionData data emptyTables

/-- Lookup in one channel table: correction_data[channel][vscale][units]. -/
def lookupChannel (t : ChannelTable) (vs u : ℚ) : Option ℚ :=
  match dlookup vs t with
  | none => none
  | some sub => dlookup u sub

/-- Lookup in the whole table under the key (channel, vscale, units). -/
def lookupFactor (tbls : List ChannelTable) (ch : ℕ) (vs u : ℚ) : Option ℚ :=
  match tbls[ch]? with
  | none => none
  | some t => lookupChannel t vs u

/-! ## Lemmas about the correction table -/

lemma dlookup_dinsert_self {β : Type} (k : ℚ) (v : β) (l : List (ℚ × β)) :
    dlookup k (dinsert k v l) = some v := by
  induction l with
  | nil => simp [dinsert, dlookup]
  | cons p rest ih =>
    by_cases h : k = p.1
    · simp [dinsert, dlookup, h]
    · simp [dinsert, dlookup, h, ih]

lemma lookupChannel_addRecord (t : ChannelTable) (r : CalRecord) :
    lookupChannel (addRecord t r) r.vscale (units r) = some (correction_factor r) := by
  simp [lookupChannel, addRecord, dlookup_dinsert_self]

lemma processChannel_error_of_mem (recs : List CalRecord) (t : ChannelTable)
    (r : CalRecord) (hr : r ∈ recs) (hden : units r * (1 / 100) * r.vscale = 0) :
    processChannel recs t = .error () := by
  induction recs generalizing t with
  | nil => cases hr
  | cons a rest ih =>
    rw [List.mem_cons] at hr
    by_cases ha : units a * (1 / 100) * a.vscale = 0
    · simp only [processChannel]
      rw [if_pos ha]
    · rcases hr with hr | hr
      · exact absurd (hr ▸ hden) ha
      · simp only [processChannel]
        rw [if_neg ha]
        exact ih (addRecord t a) hr

/-- C1: for every calibration record, the correction model computes
units = measured_value - zero_offset and
correction_factor = test_voltage / (units * 0.01 * vscale), and stores the
factor in the nested table under the keys (channel, vscale, units). -/
theorem c1_correction_model (ch : ℕ) (hch : ch < 8) (r : CalRecord)
    (hden : units r * (1 / 100) * r.vscale ≠ 0) :
    units r = r.measured_value - r.zero_offset ∧
    correction_factor r = r.test_voltage / (units r * (1 / 100) * r.vscale) ∧
    ∃ tbls, load [(ch, [r])] = .ok tbls ∧
      lookupFactor tbls ch r.vscale (units r) = some (correction_factor r) := by
  refine ⟨rfl, rfl, ?_⟩
  have hlen : ch < emptyTables.length := by simpa [emptyTables] using hch
  refine ⟨emptyTables.set ch (addRecord emptyTables[ch] r), ?_, ?_⟩
  · simp only [load, loadCorrectionData]
    rw [dif_pos hlen]
    simp only [processChannel]
    rw [if_neg hden]
  · have hget : (emptyTables.set ch (addRecord emptyTables[ch] r))[ch]?
        = some (addRecord emptyTables[ch] r) :=
      List.getElem?_set_eq_of_lt (addRecord emptyTables[ch] r) hlen
    simp [lookupFactor, hget, lookupChannel_addRecord]

/-- C1 witness: the record with test_voltage 5.0, measured_value 510.0,
zero_offset 10.0 and vscale 1.0 yields units 500 and the loaded table
returns exactly 1 under the key (0, 1, 500). -/
theorem c1_correction_model_witness :
    units ⟨5, 510, 1, 10⟩ = 500 ∧
    ∃ tbls, load [(0, [⟨5, 510, 1, 10⟩])] = .ok tbls ∧
      lookupFactor tbls 0 1 500 = some 1 := by
  have hu : units ⟨5, 510, 1, 10⟩ = 500 := by norm_num [units]
  have hf : correction_factor ⟨5, 510, 1, 10⟩ = 1 := by
    norm_num [correction_factor, units]
  obtain ⟨-, -, tbls, hload, hlook⟩ :=
    c1_correction_model 0 (by norm_num) ⟨5, 510, 1, 10⟩ (by norm_num [units])
  rw [hu, hf] at hlook
  exact ⟨hu, tbls, hload, hlook⟩

lemma loadCorrectionData_error_of_mem (data : List (ℕ × List CalRecord))
    (tbls : List ChannelTable) (ch : ℕ) (recs : List CalRecord) (r : CalRecord)
    (hmem : (ch, recs) ∈ data) (hr : r ∈ recs)
    (hden : units r * (1 / 100) * r.vscale = 0) :
    loadCorrectionData data tbls = .error () := by
  induction data generalizing tbls with
  | nil => cases hmem
  | cons p rest ih =>
    obtain ⟨ch0, recs0⟩ := p
    rw [List.mem_cons] at hmem
    simp only [loadCorrectionData]
    by_cases hlen : ch0 < tbls.length
    · rw [dif_pos hlen]
      rcases hmem with hmem | hmem
      · obtain ⟨h1, h2⟩ := Prod.mk.injEq .. ▸ hmem
        rw [processChannel_error_of_mem recs0 tbls[ch0] r (h2 ▸ hr) hden]
      · cases hpc : processChannel recs0 tbls[ch0] with
        | error e => rfl
        | ok t => exact ih (tbls.set ch0 t) hmem
    · rw [dif_neg hlen]

/-- C2 counterexample: a calibration file whose first record has
measured_value = zero_offset (units = 0) makes the whole load fail with an
unhandled ZeroDivisionError; the rest of the table is never built, so the
degenerate record is not skipped and the remaining valid record is lost. -/
theorem c2_zero_units_counterexample :
    load [(0, [⟨5, 10, 1, 10⟩, ⟨5, 510, 1, 10⟩])] = .error () := by
  have h : units (⟨5, 10, 1, 10⟩ : CalRecord) * (1 / 100) * (1 : ℚ) = 0 := by
    norm_num [units]
  simp only [load, emptyTables, loadCorrectionData]
  rw [dif_pos (by norm_num)]
  simp only [processChannel]
  rw [if_pos (by norm_num [units])]

/-- C2 amended: the division at line 82 is unguarded, so any record whose
denominator units * 0.01 * vscale is zero raises ZeroDivisionError and
aborts construction of the entire correction table; no CalibrationDataError
is raised and no record is skipped. -/
theorem c2_zero_units_aborts_load (data : List (ℕ × List CalRecord))
    (ch : ℕ) (recs : List CalRecord) (r : CalRecord)
    (hmem : (ch, recs) ∈ data) (hr : r ∈ recs)
    (hden : units r * (1 / 100) * r.vscale = 0) :
    load data = .error () :=
  loadCorrectionData_error_of_mem data emptyTables ch recs r hmem hr hden

/-- C2 witness: instantiating the abort theorem at the concrete degenerate
record of the counterexample file. -/
theorem c2_zero_units_aborts_load_witness :
    load [(3, [⟨5, 510, 1, 10⟩]), (0, [⟨5, 10, 1, 10⟩])] = .error () :=
  c2_zero_units_aborts_load _ 0 [⟨5, 10, 1, 10⟩] ⟨5, 10, 1, 10⟩ (by simp)
    (by simp) (by norm_num [units])

/-- C9: when two records for the same channel and vscale produce the same
units value, the later record silently overwrites the earlier one: after a
successful load of recs ++ [r], the table holds exactly the factor of the
last record r under its key. -/
theorem c9_later_record_overwrites (recs : List CalRecord) (r : CalRecord)
    (t0 tbl : ChannelTable)
    (h : processChannel (recs ++ [r]) t0 = .ok tbl) :
    lookupChannel tbl r.vscale (units r) = some (correction_factor r) := by
  induction recs generalizing t0 with
  | nil =>
    simp only [List.nil_append, processChannel] at h
    by_cases hden : units r * (1 / 100) * r.vscale = 0
    · rw [if_pos hden] at h
      cases h
    · rw [if_neg hden] at h
      obtain rfl : addRecord t0 r = tbl := by
        simpa [processChannel] using h
      exact lookupChannel_addRecord t0 r
  | cons a rest ih =>
    simp only [List.cons_append, processChannel] at h
    by_cases hden : units a * (1 / 100) * a.vscale = 0
    · rw [if_pos hden] at h
      cases h
    · rw [if_neg hden] at h
      exact ih (addRecord t0 a) h

/-- C9 witness: two records on vscale 1 with the same units value 500; the
loaded channel table returns the second factor 2, not the first factor 1. -/
theorem c9_later_record_overwrites_witness :
    lookupChannel [(1, [(500, 2)])] 1 500 = some 2 ∧
    correction_factor ⟨5, 510, 1, 10⟩ = 1 := by
  have hpc : processChannel [⟨5, 510, 1, 10⟩, ⟨10, 510, 1, 10⟩] []
      = .ok [(1, [(500, 2)])] := by
    simp only [processChannel]
    rw [if_neg (by norm_num [units]), if_neg (by norm_num [units])]
    have h1 : addRecord [] ⟨5, 510, 1, 10⟩ = [(1, [(500, 1)])] := by
      simp [addRecord, dinsert, dlookup, units, correction_factor]
      norm_num
    have h2 : addRecord [(1, [(500, 1)])] ⟨10, 510, 1, 10⟩ = [(1, [(500, 2)])] := by
      simp [addRecord, dinsert, dlookup, units, correction_factor]
      norm_num
    rw [h1, h2]
  have h := c9_later_record_overwrites [⟨5, 510, 1, 10⟩] ⟨10, 510, 1, 10⟩ []
    [(1, [(500, 2)])] hpc
  constructor
  · have hu : units (⟨10, 510, 1, 10⟩ : CalRecord) = 500 := by norm_num [units]
    have hf : correction_factor (⟨10, 510, 1, 10⟩ : CalRecord) = 2 := by
      norm_num [correction_factor, units]
    rw [hu, hf] at h
    exact h
  · norm_num [correction_factor, units]

/-! ## Channel configuration resolver (csvexport.py lines 29-54) -/

/-- Lines 29-34: default to all eight channels when none are given, then
convert the 1-based selection to 0-based physical indices. -/
def resolveChannels (sel : Option (List ℕ)) : List ℕ :=
  match sel with
  | none => ((List.range 8).map (· + 1)).map (· - 1)
  | some s =>
    if s.length = 0 then ((List.range 8).map (· + 1)).map (· - 1)
    else s.map (· - 1)

/-- Lines 40-54: resolve the vertical scale factors to one factor per
physical channel slot.  selected is the 0-based selection; a None list
becomes 1.0 everywhere, a singleton is broadcast to the selected channels,
and otherwise factor i is looked up through selected.indexOf, so it binds
positionally to the i-th selected channel; unselected slots get 1.0. -/
def resolveVScale (selected : List ℕ) (vsf : Option (List ℚ)) : List ℚ :=
  match vsf with
  | none => List.replicate 8 1
  | some v =>
    if v.length = 1 then
      (List.range 8).map (fun i => if i ∈ selected then v.getD 0 1 else 1)
    else
      (List.range 8).map
        (fun i => if i ∈ selected then v.getD (selected.indexOf i) 1 else 1)

lemma resolveVScale_getD (selected : List ℕ) (v : List ℚ) (i : ℕ) (hi : i < 8) :
    (resolveVScale selected (some v)).getD i 1
      = (if v.length = 1 then (if i ∈ selected then v.getD 0 1 else 1)
         else (if i ∈ selected then v.getD (selected.indexOf i) 1 else 1)) := by
  by_cases hv : v.length = 1 <;>
    simp [resolveVScale, hv, List.getD, List.getElem?_map, List.getElem?_range, hi]

/-- C3: for every valid channel selection and scale-factor list the resolver
produces a scale vector of length 8 in which every unselected physical index
is 1; a single factor is broadcast to every selected channel, and with one
factor per selected channel, factor k binds to selected.get k positionally
in the input order of the selection. -/
theorem c3_vscale_resolution (selected : List ℕ) (v : List ℚ)
    (hnd : selected.Nodup) :
    (resolveVScale selected (some v)).length = 8 ∧
    (∀ i, i < 8 → i ∉ selected → (resolveVScale selected (some v)).getD i 1 = 1) ∧
    (v.length = 1 → ∀ i ∈ selected, i < 8 →
      (resolveVScale selected (some v)).getD i 1 = v.getD 0 1) ∧
    (v.length = selected.length → ∀ k, (hk : k < selected.length) →
      selected.get ⟨k, hk⟩ < 8 →
      (resolveVScale selected (some v)).getD (selected.get ⟨k, hk⟩) 1
        = v.getD k 1) := by
  refine ⟨?_, ?_, ?_, ?_⟩
  · by_cases hv : v.length = 1 <;> simp [resolveVScale, hv]
  · intro i hi hmem
    rw [resolveVScale_getD selected v i hi]
    by_cases hv : v.length = 1 <;> simp [hv, hmem]
  · intro hv i hmem hi
    rw [resolveVScale_getD selected v i hi, if_pos hv, if_pos hmem]
  · intro hv k hk hlt
    rw [resolveVScale_getD selected v _ hlt]
    have hmem : selected.get ⟨k, hk⟩ ∈ selected := selected.get_mem k hk
    have hidx : List.indexOf (selected.get ⟨k, hk⟩) selected = k := by
      simp only [List.get_eq_getElem]
      exact List.indexOf_getElem hnd k hk
    by_cases h1 : v.length = 1
    · have hk0 : k = 0 := by omega
      subst hk0
      rw [if_pos h1, if_pos hmem]
    · rw [if_neg h1, if_pos hmem, hidx]

/-- C3 witness: selecting 0-based channels [2, 0] (channels 3 and 1) with
factors [2, 5] binds 2 to channel index 2 and 5 to channel index 0, while
the unselected index 1 stays at 1; with the single factor [7] both selected
channels get 7. -/
theorem c3_vscale_resolution_witness :
    (resolveVScale [2, 0] (some [2, 5])).getD 2 1 = 2 ∧
    (resolveVScale [2, 0] (some [2, 5])).getD 0 1 = 5 ∧
    (resolveVScale [2, 0] (some [2, 5])).getD 1 1 = 1 ∧
    (resolveVScale [2, 0] (some [7])).getD 2 1 = 7 ∧
    (resolveVScale [2, 0] (some [7])).getD 0 1 = 7 := by
  have h := c3_vscale_resolution [2, 0] [2, 5] (by decide)
  have h7 := c3_vscale_resolution [2, 0] [7] (by decide)
  refine ⟨?_, ?_, ?_, ?_, ?_⟩
  · simpa using h.2.2.2 rfl 0 (by decide) (by decide)
  · simpa using h.2.2.2 rfl 1 (by decide) (by decide)
  · exact h.2.1 1 (by decide) (by decide)
  · simpa using h7.2.2.1 rfl 2 (by decide) (by decide)
  · simpa using h7.2.2.1 rfl 0 (by decide) (by decide)

/-! ## Streaming tabular exporter (csvexport.py lines 139-192)

The sink is modelled as a list of written lines; opening in append mode
(lines 146, 149) means the session writes after the existing file content.
One constructor per distinct kind of line written by the source. -/

inductive Line
  | channelTitles (chans : List ℕ)
  | samplingRate (r : ℕ)
  | measuredRate (r : ℚ)
  | unixTime
  | isoTime
  | vscaleLine (v : List ℚ)
  | calibHeader
  | zeroOffsetLine (vs : ℚ) (offs : List ℚ)
  | dataRow (vals : List ℚ)
  | timestamp
deriving DecidableEq

/-- Lines 152-163: the commented metadata header, written right after the
sink is opened and before any data row: channel titles, configured sampling
rate, optionally the measured sampling rate, two start-time lines, the
vscale vector, and the zero-offset snapshot sorted by vscale (the sorted
snapshot is taken as the input list cal). -/
def headerLines (sel : List ℕ) (sr : ℕ) (msr : Option ℚ) (vsc : List ℚ)
    (cal : List (ℚ × List ℚ)) : List Line :=
  [Line.channelTitles sel, Line.samplingRate sr]
    ++ (match msr with | some r => [Line.measuredRate r] | none => [])
    ++ [Line.unixTime, Line.isoTime, Line.vscaleLine vsc, Line.calibHeader]
    ++ cal.map (fun p => Line.zeroOffsetLine p.1 p.2)

/-- Minimum length of the per-channel sequences, used to model the
truncating behaviour of zip(*columns). -/
def minLen : List (List ℚ) → ℕ
  | [] => 0
  | c :: rest => rest.foldl (fun m col => min m col.length) c.length

/-- Python zip(*cols): tuples of the i-th elements until the shortest
column is exhausted. -/
def zipCols (cols : List (List ℚ)) : List (List ℚ) :=
  match cols with
  | [] => []
  | _ => (List.range (minLen cols)).map (fun i => cols.map (fun c => c.getD i 0))

/-- Lines 166-173, one iteration of the roll-mode loop: select the columns
of the selected channels, transpose with zip, write the resulting rows, and
append one commented timestamp line per batch. -/
def batchLines (sel : List ℕ) (batch : List (List ℚ)) : List Line :=
  (zipCols (sel.map (fun ch => batch.getD ch []))).map Line.dataRow
    ++ [Line.timestamp]

/-- How the sample stream ends: the generator is exhausted, a
KeyboardInterrupt arrives between batches, or some other exception is
raised. -/
inductive StreamEnd
  | exhausted
  | interrupt
  | fatal
deriving DecidableEq

/-- Result of one export session: the file content and which of the
shutdown actions of lines 185-192 ran. -/
structure ExportResult where
  file : List Line
  cancelLogged : Bool
  sinkClosed : Bool
  deviceClosed : Bool
deriving DecidableEq

/-- Lines 139-192: open the sink in append mode after the existing content
file0, write the header, then write each arriving batch.  A
KeyboardInterrupt is caught at line 185: the cancellation is logged and
control falls through to csv_file.close() (line 189) and device.close()
(line 192).  Any other exception propagates out of main, so neither close
call runs.  On normal loop exit both close calls run without the log. -/
def runExport (hdr : List Line) (sel : List ℕ) (file0 : List Line)
    (batches : List (List (List ℚ))) (e : StreamEnd) : ExportResult :=
  let file := file0 ++ hdr ++ (batches.map (batchLines sel)).flatten
  match e with
  | .exhausted => ⟨file, false, true, true⟩
  | .interrupt => ⟨file, true, true, true⟩
  | .fatal => ⟨file, false, false, false⟩

/-- A line opens a (new) metadata header exactly when it is the channel
title line, the first line every session writes. -/
def isHeaderStart : Line → Bool
  | Line.channelTitles _ => true
  | _ => false

/-- Number of metadata headers present in a file. -/
def countHeaders (file : List Line) : ℕ :=
  (file.filter isHeaderStart).length

lemma countHeaders_append (a b : List Line) :
    countHeaders (a ++ b) = countHeaders a + countHeaders b := by
  simp [countHeaders]

lemma countHeaders_headerLines (sel : List ℕ) (sr : ℕ) (msr : Option ℚ)
    (vsc : List ℚ) (cal : List (ℚ × List ℚ)) :
    countHeaders (headerLines sel sr msr vsc cal) = 1 := by
  cases msr <;>
    simp [headerLines, countHeaders, List.filter_append, List.filter_map,
      isHeaderStart, Function.comp]

lemma countHeaders_batchLines (sel : List ℕ) (batch : List (List ℚ)) :
    countHeaders (batchLines sel batch) = 0 := by
  simp [batchLines, countHeaders, List.filter_append, List.filter_map,
    isHeaderStart, Function.comp]

lemma countHeaders_data_flatten (sel : List ℕ)
    (batches : List (List (List ℚ))) :
    countHeaders ((batches.map (batchLines sel)).flatten) = 0 := by
  induction batches with
  | nil => rfl
  | cons b rest ih =>
    simp only [List.map_cons, List.flatten_cons, countHeaders_append,
      countHeaders_batchLines, ih]

/-- C4 amended: every session writes its metadata header exactly once,
positioned after the pre-existing content and before all of the session's
data rows; however, since the sink is opened in append mode, running a
session on an already-existing export file adds one more header to it, so
the total header count grows by one per session and a re-opened file does
contain duplicate headers. -/
theorem c4_header_once_per_session (sel : List ℕ) (sr : ℕ) (msr : Option ℚ)
    (vsc : List ℚ) (cal : List (ℚ × List ℚ)) (file0 : List Line)
    (batches : List (List (List ℚ))) (e : StreamEnd) :
    (∃ rows, (runExport (headerLines sel sr msr vsc cal) sel file0 batches e).file
        = file0 ++ headerLines sel sr msr vsc cal ++ rows
      ∧ countHeaders rows = 0) ∧
    countHeaders (runExport (headerLines sel sr msr vsc cal) sel file0 batches e).file
      = countHeaders file0 + 1 := by
  have hfile : (runExport (headerLines sel sr msr vsc cal) sel file0 batches e).file
      = file0 ++ headerLines sel sr msr vsc cal
        ++ (batches.map (batchLines sel)).flatten := by
    cases e <;> rfl
  constructor
  · exact ⟨(batches.map (batchLines sel)).flatten, hfile,
      countHeaders_data_flatten sel batches⟩
  · rw [hfile, countHeaders_append, countHeaders_append,
      countHeaders_headerLines, countHeaders_data_flatten]

/-- C4 counterexample: two consecutive sessions appending to the same path
leave two headers in the file, contradicting the claim that re-opening an
existing export path in append mode never produces a duplicate header. -/
theorem c4_append_duplicates_header :
    countHeaders
      (runExport (headerLines [0] 440 none [1] []) [0]
        (runExport (headerLines [0] 440 none [1] []) [0] [] [[[3, 4]]]
          StreamEnd.exhausted).file
        [[[5, 6]]] StreamEnd.exhausted).file = 2 := by
  rfl

/-- C6 amended: on normal completion and on operator interrupt the sink is
closed and the device handle is released; on interrupt the exporter stops
consuming new batches, logs a cancellation notice, and proceeds through the
normal shutdown path, leaving the file with exactly the content a normal
run over the already-arrived batches would leave.  On a fatal (non
interrupt) error, however, the exception propagates past the close calls:
neither the sink nor the device is closed, because the source has no
try/finally around lines 139-192. -/
theorem c6_shutdown_paths (hdr : List Line) (sel : List ℕ) (file0 : List Line)
    (batches : List (List (List ℚ))) :
    (runExport hdr sel file0 batches StreamEnd.exhausted).sinkClosed = true ∧
    (runExport hdr sel file0 batches StreamEnd.exhausted).deviceClosed = true ∧
    (runExport hdr sel file0 batches StreamEnd.interrupt).sinkClosed = true ∧
    (runExport hdr sel file0 batches StreamEnd.interrupt).deviceClosed = true ∧
    (runExport hdr sel file0 batches StreamEnd.interrupt).cancelLogged = true ∧
    (runExport hdr sel file0 batches StreamEnd.interrupt).file
      = (runExport hdr sel file0 batches StreamEnd.exhausted).file :=
  ⟨rfl, rfl, rfl, rfl, rfl, rfl⟩

/-- C6 counterexample: a fatal error after one batch leaves both the sink
and the device open, contradicting the claim that every exit path of the
export loop closes the sink and releases the device handle. -/
theorem c6_fatal_skips_shutdown :
    (runExport (headerLines [0] 440 none [1] []) [0] [] [[[3, 4]]]
      StreamEnd.fatal).sinkClosed = false ∧
    (runExport (headerLines [0] 440 none [1] []) [0] [] [[[3, 4]]]
      StreamEnd.fatal).deviceClosed = false :=
  ⟨rfl, rfl⟩

/-! ## Sampling-rate estimator (csvexport.py lines 195-207)

A batch of the roll-mode stream is modelled by the number of rows it
carries (len(data[0])) together with the wall-clock instant at which it is
received by the loop; time.perf_counter readings are rationals. -/

structure Batch where
  size : ℕ
  time : ℚ
deriving DecidableEq

def sumSizes (l : List Batch) : ℕ := (l.map Batch.size).sum

/-- Arrival time of the last batch of a consumed prefix. -/
def lastTime (l : List Batch) : ℚ := ((l.getLast?).map Batch.time).getD 0

/-- Lines 198-204, the loop body after start_time has been set: add
len(data[0]) to the counter and break as soon as the required count is
reached; the second component is the perf_counter reading at loop exit,
i.e. the arrival time of the batch that was being handled. -/
def msrGo (required counter : ℕ) (now : ℚ) : List Batch → ℕ × ℚ
  | [] => (counter, now)
  | b :: rest =>
    if required ≤ counter + b.size then (counter + b.size, b.time)
    else msrGo required (counter + b.size) b.time rest

/-- Lines 195-207: counter starts at -1 so the first batch sets
start_time to its own arrival instant and resets counter to 0 before that
same batch is added to the count; the function returns the final counter
together with duration = perf_counter() - start_time.  An empty stream is
none (start_time would be unbound in Python). -/
def measure_result (required : ℕ) : List Batch → Option (ℕ × ℚ)
  | [] => none
  | b :: rest => some ((msrGo required 0 b.time (b :: rest)).1,
      (msrGo required 0 b.time (b :: rest)).2 - b.time)

/-- Line 207: return counter / duration. -/
def measure_sampling_rate (required : ℕ) (batches : List Batch) : Option ℚ :=
  (measure_result required batches).map (fun p => (p.1 : ℚ) / p.2)

lemma lastTime_cons (b : Batch) (l : List Batch) (h : l ≠ []) :
    lastTime (b :: l) = lastTime l := by
  cases l with
  | nil => exact absurd rfl h
  | cons c rest => simp [lastTime, List.getLast?_cons_cons]

lemma msrGo_spec (l : List Batch) (required : ℕ) :
    ∀ (counter : ℕ) (now : ℚ), counter < required →
    required ≤ counter + sumSizes l →
    ∃ pre post, l = pre ++ post ∧ pre ≠ [] ∧
      msrGo required counter now l = (counter + sumSizes pre, lastTime pre) ∧
      required ≤ counter + sumSizes pre ∧
      counter + sumSizes pre.dropLast < required := by
  induction l with
  | nil =>
    intro counter now hlt htot
    simp only [sumSizes, List.map_nil, List.sum_nil, Nat.add_zero] at htot
    omega
  | cons b rest ih =>
    intro counter now hlt htot
    by_cases hb : required ≤ counter + b.size
    · refine ⟨[b], rest, rfl, by simp, ?_, ?_, ?_⟩
      · simp only [msrGo, if_pos hb]
        simp [sumSizes, lastTime]
      · simpa [sumSizes] using hb
      · simpa [sumSizes] using hlt
    · have htot2 : required ≤ counter + b.size + sumSizes rest := by
        simp only [sumSizes, List.map_cons, List.sum_cons] at htot ⊢
        omega
      obtain ⟨pre, post, hsplit, hne, heq, hreq, hmin⟩ :=
        ih (counter + b.size) b.time (by omega) htot2
      refine ⟨b :: pre, post, by rw [hsplit, List.cons_append], by simp,
        ?_, ?_, ?_⟩
      · simp only [msrGo, if_neg hb, heq, lastTime_cons b pre hne]
        congr 1
        simp only [sumSizes, List.map_cons, List.sum_cons]
        omega
      · simp only [sumSizes, List.map_cons, List.sum_cons] at hreq ⊢
        omega
      · cases pre with
        | nil => exact absurd rfl hne
        | cons c pre2 =>
          simp only [List.dropLast, sumSizes, List.map_cons,
            List.sum_cons] at hmin ⊢
          omega

/-- C5 amended: the estimator starts its wall-clock timer at the arrival of
the first batch, but that first (warm-up) batch's rows are included in the
returned count: the estimator consumes exactly a minimal nonempty prefix of
the stream, starting with the first batch, whose cumulative row count
reaches the required count, stops consuming there, and returns that count
together with the elapsed time from the first batch's arrival to the
arrival of the batch that completed the count; only the latency before the
first batch arrives is excluded. -/
theorem c5_estimator (b : Batch) (rest : List Batch) (required : ℕ)
    (hpos : 0 < required) (htot : required ≤ sumSizes (b :: rest)) :
    ∃ pre post, b :: rest = pre ++ post ∧ pre ≠ [] ∧
      measure_result required (b :: rest)
        = some (sumSizes pre, lastTime pre - b.time) ∧
      measure_sampling_rate required (b :: rest)
        = some ((sumSizes pre : ℚ) / (lastTime pre - b.time)) ∧
      required ≤ sumSizes pre ∧ sumSizes pre.dropLast < required := by
  obtain ⟨pre, post, hsplit, hne, heq, hreq, hmin⟩ :=
    msrGo_spec (b :: rest) required 0 b.time hpos (by simpa using htot)
  refine ⟨pre, post, hsplit, hne, ?_, ?_, by simpa using hreq,
    by simpa using hmin⟩
  · simp only [measure_result, heq, Nat.zero_add]
  · simp [measure_sampling_rate, measure_result, heq]

/-- C5 counterexample: with a warm-up batch of 100 rows at time 10 and a
second batch of 300 rows at time 11 and a required count of 300, the code
returns count 400 over 1 second: the 100 warm-up rows ARE included in the
returned count, contradicting the claim that rows of the warm-up stage are
never counted (the batches after the skip boundary only total 300). -/
theorem c5_warmup_rows_counted :
    measure_result 300 [⟨100, 10⟩, ⟨300, 11⟩] = some (400, 1) ∧
    measure_sampling_rate 300 [⟨100, 10⟩, ⟨300, 11⟩] = some 400 ∧
    sumSizes [⟨300, 11⟩] = 300 ∧ (400 : ℕ) ≠ 300 := by
  have hgo : msrGo 300 0 (10 : ℚ) [⟨100, 10⟩, ⟨300, 11⟩] = (400, 11) := by
    simp only [msrGo]
    norm_num
  refine ⟨?_, ?_, by simp [sumSizes], by norm_num⟩
  · simp only [measure_result, hgo]
    norm_num
  · simp only [measure_sampling_rate, measure_result, hgo]
    norm_num

/-- C5 witness: the amended theorem applied to the counterexample stream;
the minimal consumed prefix is the whole two-batch stream. -/
theorem c5_estimator_witness :
    0 < 300 ∧ 300 ≤ sumSizes [⟨100, 10⟩, ⟨300, 11⟩] ∧
    ∃ pre post, ([⟨100, 10⟩, ⟨300, 11⟩] : List Batch) = pre ++ post ∧
      pre ≠ [] ∧
      measure_result 300 [⟨100, 10⟩, ⟨300, 11⟩]
        = some (sumSizes pre, lastTime pre - (10 : ℚ)) ∧
      measure_sampling_rate 300 [⟨100, 10⟩, ⟨300, 11⟩]
        = some ((sumSizes pre : ℚ) / (lastTime pre - (10 : ℚ))) ∧
      300 ≤ sumSizes pre ∧ sumSizes pre.dropLast < 300 :=
  ⟨by norm_num, by simp [sumSizes],
    c5_estimator ⟨100, 10⟩ [⟨300, 11⟩] 300 (by norm_num) (by simp [sumSizes])⟩

/-! ## Interactive calibration recorder (csvexport.py lines 210-272)

The operator input stream is a list of commands, one consumed per
(channel, voltage) prompt; a measure command carries the 512 raw rows the
device would deliver for that cell.  Device state (vscales, zero offsets)
is a pair of functions from channel index to rational. -/

/-- Round half to even, the rounding used by Python round(). -/
def roundHalfEven (x : ℚ) : ℤ :=
  if x - ⌊x⌋ < 1 / 2 then ⌊x⌋
  else if (1 : ℚ) / 2 < x - ⌊x⌋ then ⌊x⌋ + 1
  else if ⌊x⌋ % 2 = 0 then ⌊x⌋ else ⌊x⌋ + 1

/-- Python round(x, 2) on the exact rational model: round x * 100 half to
even and scale back.  (CPython rounds the nearest binary double, which can
differ on ties that are not exactly representable; no claim depends on
that.) -/
def pyRound2 (x : ℚ) : ℚ := (roundHalfEven (x * 100) : ℚ) / 100

/-- One operator answer to the prompt of line 238: Enter (measure, with the
rows the device then yields), s (skip voltage), ss (skip channel) or
q (quit). -/
inductive Cmd
  | measure (rows : List (List ℚ))
  | skipV
  | skipCh
  | quit
deriving DecidableEq

/-- Result of (part of) the interactive routine: normal completion
carrying a value, immediate return through the q branch (line 241), or a
prompt with no remaining input (cannot happen on the inputs considered:
input() blocks). -/
inductive CalOutcome (α : Type)
  | done (a : α)
  | quit
  | starved
deriving DecidableEq

/-- Lines 237-268, the inner loop over test voltages for one channel:
each voltage consumes one command; q returns from the whole routine, ss
breaks the inner loop, s continues, and Enter measures: the target
channel's column of the collected rows is averaged and appended as a
calibration record ⟨test_voltage, round(avg, 2), vscale,
round(zero_offset, 2)⟩.  Returns the records of this channel and the
unconsumed commands. -/
def runVoltages (vsc zo : ℕ → ℚ) (ch : ℕ) :
    List ℚ → List Cmd → CalOutcome (List CalRecord × List Cmd)
  | [], cmds => .done ([], cmds)
  | _ :: _, [] => .starved
  | v :: vs, c :: cmds =>
    match c with
    | .quit => .quit
    | .skipCh => .done ([], cmds)
    | .skipV => runVoltages vsc zo ch vs cmds
    | .measure rows =>
      match runVoltages vsc zo ch vs cmds with
      | .done (recs, rest) =>
        .done (⟨v,
          pyRound2 ((rows.map (fun row => row.getD ch 0)).sum
            / ((rows.map (fun row => row.getD ch 0)).length : ℚ)),
          vsc ch, pyRound2 (zo ch)⟩ :: recs, rest)
      | .quit => .quit
      | .starved => .starved

/-- Lines 233-268, the outer loop over channels: each channel first gets an
empty record list (line 235, so a fully skipped channel still appears with
an empty list), then its voltages are processed; q propagates out of the
whole routine. -/
def runChannels (vsc zo : ℕ → ℚ) (voltages : List ℚ) :
    List ℕ → List Cmd → CalOutcome (List (ℕ × List CalRecord) × List Cmd)
  | [], cmds => .done ([], cmds)
  | ch :: chs, cmds =>
    match runVoltages vsc zo ch voltages cmds with
    | .quit => .quit
    | .starved => .starved
    | .done (recs, rest) =>
      match runChannels vsc zo voltages chs rest with
      | .done (m, rest2) => .done ((ch, recs) :: m, rest2)
      | .quit => .quit
      | .starved => .starved

/-- Lines 233-272: the routine traverses channels 0..7; only when both
loops finish naturally does control reach line 271 where the accumulated
dictionary is serialized. -/
def calibration_routine (vsc zo : ℕ → ℚ) (voltages : List ℚ)
    (cmds : List Cmd) : CalOutcome (List (ℕ × List CalRecord) × List Cmd) :=
  runChannels vsc zo voltages (List.range 8) cmds

/-- What ends up in the output file: the serialized mapping on natural
completion (line 271-272) and nothing otherwise (the q branch returns
before the write). -/
def writtenFile (o : CalOutcome (List (ℕ × List CalRecord) × List Cmd)) :
    Option (List (ℕ × List CalRecord)) :=
  match o with
  | .done (m, _) => some m
  | _ => none

lemma runVoltages_quit_reached (vsc zo : ℕ → ℚ) (ch : ℕ) :
    ∀ (voltages : List ℚ) (pre rest : List Cmd), Cmd.quit ∉ pre →
    runVoltages vsc zo ch voltages (pre ++ Cmd.quit :: rest) = .quit ∨
    ∃ recs p1 p0, pre = p0 ++ p1 ∧
      runVoltages vsc zo ch voltages (pre ++ Cmd.quit :: rest)
        = .done (recs, p1 ++ Cmd.quit :: rest) := by
  intro voltages
  induction voltages with
  | nil =>
    intro pre rest hq
    exact Or.inr ⟨[], pre, [], by simp, rfl⟩
  | cons v vs ih =>
    intro pre rest hq
    cases pre with
    | nil => exact Or.inl rfl
    | cons c pre2 =>
      rw [List.mem_cons, not_or] at hq
      obtain ⟨hc, hq2⟩ := hq
      cases c with
      | quit => exact absurd rfl hc
      | skipCh =>
        exact Or.inr ⟨[], pre2, [Cmd.skipCh], rfl, rfl⟩
      | skipV =>
        rcases ih pre2 rest hq2 with h | ⟨recs, p1, p0, hp, h⟩
        · exact Or.inl h
        · exact Or.inr ⟨recs, p1, Cmd.skipV :: p0, by rw [hp, List.cons_append], h⟩
      | measure rows =>
        rcases ih pre2 rest hq2 with h | ⟨recs, p1, p0, hp, h⟩
        · refine Or.inl ?_
          simp only [List.cons_append, runVoltages, List.append_eq, h]
        · refine Or.inr ⟨⟨v, pyRound2 ((rows.map (fun row => row.getD ch 0)).sum
              / ((rows.map (fun row => row.getD ch 0)).length : ℚ)),
              vsc ch, pyRound2 (zo ch)⟩ :: recs, p1, Cmd.measure rows :: p0,
            by rw [hp, List.cons_append], ?_⟩
          simp only [List.cons_append, runVoltages, List.append_eq, h]

lemma runChannels_quit_reached (vsc zo : ℕ → ℚ) (voltages : List ℚ) :
    ∀ (chs : List ℕ) (pre rest : List Cmd), Cmd.quit ∉ pre →
    runChannels vsc zo voltages chs (pre ++ Cmd.quit :: rest) = .quit ∨
    ∃ m p1 p0, pre = p0 ++ p1 ∧
      runChannels vsc zo voltages chs (pre ++ Cmd.quit :: rest)
        = .done (m, p1 ++ Cmd.quit :: rest) ∧
      m.map Prod.fst = chs := by
  intro chs
  induction chs with
  | nil =>
    intro pre rest hq
    exact Or.inr ⟨[], pre, [], by simp, rfl, rfl⟩
  | cons ch chs ih =>
    intro pre rest hq
    rcases runVoltages_quit_reached vsc zo ch voltages pre rest hq
        with h | ⟨recs, p1, p0, hp, h⟩
    · refine Or.inl ?_
      simp only [runChannels, List.append_eq, h]
    · have hq1 : Cmd.quit ∉ p1 := fun hmem => hq (hp ▸ List.mem_append_right p0 hmem)
      rcases ih p1 rest hq1 with h2 | ⟨m, p1b, p0b, hp1, h2, hmap⟩
      · refine Or.inl ?_
        simp only [runChannels, List.append_eq, h, h2]
      · refine Or.inr ⟨(ch, recs) :: m, p1b, p0 ++ p0b, ?_, ?_, ?_⟩
        · rw [hp, hp1, List.append_assoc]
        · simp only [runChannels, List.append_eq, h, h2]
        · simp [hmap]

lemma runChannels_keys (vsc zo : ℕ → ℚ) (voltages : List ℚ) :
    ∀ (chs : List ℕ) (cmds : List Cmd) (m : List (ℕ × List CalRecord))
      (rest : List Cmd),
    runChannels vsc zo voltages chs cmds = .done (m, rest) →
    m.map Prod.fst = chs := by
  intro chs
  induction chs with
  | nil =>
    intro cmds m rest h
    simp only [runChannels] at h
    obtain ⟨rfl, -⟩ := Prod.mk.injEq .. ▸ CalOutcome.done.inj h
    rfl
  | cons ch chs ih =>
    intro cmds m rest h
    simp only [runChannels] at h
    cases hv : runVoltages vsc zo ch voltages cmds with
    | quit => simp [hv] at h
    | starved => simp [hv] at h
    | done a =>
      obtain ⟨recs, rest1⟩ := a
      simp only [hv] at h
      cases hc : runChannels vsc zo voltages chs rest1 with
      | quit => simp [hc] at h
      | starved => simp [hc] at h
      | done b =>
        obtain ⟨m1, rest2⟩ := b
        simp only [hc] at h
        obtain ⟨h1, -⟩ := Prod.mk.injEq .. ▸ CalOutcome.done.inj h
        subst h1
        simp [ih rest1 m1 rest2 hc]

/-- C7: if the operator chooses QUIT at any reached cell, the session ends
immediately and nothing is written to the output file, discarding every
already-captured record; otherwise the session ends naturally without
consuming the quit command and only then is the accumulated mapping
written, grouped by the channel ids 0..7. -/
theorem c7_quit_discards_records (vsc zo : ℕ → ℚ) (voltages : List ℚ)
    (pre rest : List Cmd) (hq : Cmd.quit ∉ pre) :
    (calibration_routine vsc zo voltages (pre ++ Cmd.quit :: rest) = .quit ∧
      writtenFile (calibration_routine vsc zo voltages
        (pre ++ Cmd.quit :: rest)) = none) ∨
    (∃ m p1 p0, pre = p0 ++ p1 ∧
      calibration_routine vsc zo voltages (pre ++ Cmd.quit :: rest)
        = .done (m, p1 ++ Cmd.quit :: rest) ∧
      writtenFile (calibration_routine vsc zo voltages
        (pre ++ Cmd.quit :: rest)) = some m ∧
      m.map Prod.fst = List.range 8) := by
  rcases runChannels_quit_reached vsc zo voltages (List.range 8) pre rest hq
      with h | ⟨m, p1, p0, hp, h, hmap⟩
  · exact Or.inl ⟨h, by rw [calibration_routine, h]; rfl⟩
  · exact Or.inr ⟨m, p1, p0, hp, h, by rw [calibration_routine, h]; rfl, hmap⟩

/-- C7 witness: quitting at the very first cell ends the session with
nothing written. -/
theorem c7_quit_discards_records_witness :
    (calibration_routine (fun _ => 1) (fun _ => 0) [1] [Cmd.quit] = .quit ∧
      writtenFile (calibration_routine (fun _ => 1) (fun _ => 0) [1]
        [Cmd.quit]) = none) ∨
    (∃ m p1 p0, ([] : List Cmd) = p0 ++ p1 ∧
      calibration_routine (fun _ => 1) (fun _ => 0) [1] [Cmd.quit]
        = .done (m, p1 ++ Cmd.quit :: ([] : List Cmd)) ∧
      writtenFile (calibration_routine (fun _ => 1) (fun _ => 0) [1]
        [Cmd.quit]) = some m ∧
      m.map Prod.fst = List.range 8) :=
  c7_quit_discards_records (fun _ => 1) (fun _ => 0) [1] [] [] (by simp)

/-- C10: at full natural completion the serialized mapping has one key per
channel 0..7 in order, and a channel whose voltages were all skipped maps
to the empty record list rather than being absent: concretely, with two
test voltages, skipping both voltages of channel 0 and then skipping every
remaining channel yields a mapping with all eight keys and empty lists. -/
theorem c10_skipped_channel_present :
    (∀ (vsc zo : ℕ → ℚ) (voltages : List ℚ) (cmds : List Cmd)
      (m : List (ℕ × List CalRecord)) (rest : List Cmd),
      calibration_routine vsc zo voltages cmds = .done (m, rest) →
      m.map Prod.fst = List.range 8) ∧
    calibration_routine (fun _ => 1) (fun _ => 0) [1, 2]
        (Cmd.skipV :: Cmd.skipV :: List.replicate 7 Cmd.skipCh)
      = .done ([(0, []), (1, []), (2, []), (3, []), (4, []), (5, []),
          (6, []), (7, [])], []) := by
  constructor
  · intro vsc zo voltages cmds m rest h
    exact runChannels_keys vsc zo voltages (List.range 8) cmds m rest h
  · rfl

/-- C10 witness: the general keys property applied to the concrete
fully-skipped run of the theorem's second part. -/
theorem c10_skipped_channel_present_witness :
    ([(0, ([] : List CalRecord)), (1, []), (2, []), (3, []), (4, []),
      (5, []), (6, []), (7, [])]).map Prod.fst = List.range 8 :=
  c10_skipped_channel_present.1 (fun _ => 1) (fun _ => 0) [1, 2]
    (Cmd.skipV :: Cmd.skipV :: List.replicate 7 Cmd.skipCh) _ []
    c10_skipped_channel_present.2

/-! ## CLI argument validation (csvexport.py lines 285-358)

The __main__ block validates the configuration before main() is entered
(and so before any device object is constructed at line 96).  argparse
rejects out-of-range channel values through channel_type; the arg_assert
calls then run in source order, each calling parser.error on a false
condition.  The conditions of lines 350 and 352 call
args.raw_or_volt.contains(...), but Python str has no method contains, so
evaluating either condition raises AttributeError whenever its left
disjunct (the is None test) is false. -/

/-- Which arg_assert fired (the parser.error exits). -/
inductive ConfigCheck
  | vscaleArity
  | dupChannels
  | zosNoFreeChannel
  | zosConflict
deriving DecidableEq

/-- How argument processing ends. -/
inductive ArgOutcome
  | ok
  | typeError
  | configError (c : ConfigCheck)
  | attributeError
deriving DecidableEq

/-- Lines 285-358: channel_type range checks, then the arg_assert chain.
calibration_file records whether -c was given (its path contents are
irrelevant to the control flow here). -/
def validate_args (channels : List ℤ) (vscale : List ℚ)
    (calibration_file : Bool) (zos : Option ℤ) : ArgOutcome :=
  if ¬(∀ c ∈ channels, 1 ≤ c ∧ c ≤ 8) then .typeError
  else if ¬(∀ z ∈ zos.toList, 1 ≤ z ∧ z ≤ 8) then .typeError
  else if ¬(vscale.length = 1 ∨ vscale.length = channels.length) then
    .configError .vscaleArity
  else if ¬channels.Nodup then .configError .dupChannels
  else if calibration_file then .attributeError
  else if zos.isSome then .attributeError
  else if ¬(zos = none ∨ channels.length < 8) then
    .configError .zosNoFreeChannel
  else if ¬(zos = none ∨ ∀ z ∈ zos.toList, z ∉ channels) then
    .configError .zosConflict
  else .ok

/-- C8: the duplicate-channel and out-of-range checks do fail before any
device interaction as claimed, but requesting zero-offset compensation at
all makes argument validation crash with AttributeError at line 352 (str
has no method contains) before the compensation-conflict and
no-free-channel arg_asserts of lines 354-358, which are consequently
unreachable for every input: a conflicting or all-eight configuration is
never reported as the claimed configuration error. -/
theorem c8_zos_validation_crash :
    validate_args [1, 2] [1] false (some 2) = .attributeError ∧
    validate_args [1, 2, 3, 4, 5, 6, 7, 8] [1] false (some 1)
      = .attributeError ∧
    (∀ (channels : List ℤ) (vscale : List ℚ) (calib : Bool) (zos : Option ℤ),
      validate_args channels vscale calib zos = .ok ∨
      validate_args channels vscale calib zos = .typeError ∨
      validate_args channels vscale calib zos = .configError .vscaleArity ∨
      validate_args channels vscale calib zos = .configError .dupChannels ∨
      validate_args channels vscale calib zos = .attributeError) ∧
    validate_args [1, 2, 2] [1] false none = .configError .dupChannels ∧
    validate_args [0] [1] false none = .typeError ∧
    validate_args [9] [1] false none = .typeError := by
  refine ⟨by decide, by decide, ?_, by decide, by decide, by decide⟩
  intro channels vscale calib zos
  unfold validate_args
  split_ifs with h1 h2 h3 h4 h5 h6 h7 h8 <;>
    cases zos <;> simp_all [Option.isSome_iff_exists]

end Hantek
